import Mathlib

/-!
Verification of the IMAC GeoData monitoring pipeline
(`Scripts/app_imac_pro.py`).

The development shallowly embeds the two core functions of the script:

* `obter_links_download` — the link resolver: for each configured source
  page it fetches the page, scans every anchor carrying an `href`, and for
  each configured match-term emits at most one resolved link (first
  matching anchor wins).  A failed page fetch is caught, logged and the
  loop continues with the next source.
* `processar_downloads` — the fetch-and-bundle pipeline: it downloads each
  resolved link into a scratch directory, records one log line per link
  (success or failure), reports progress as `(idx+1)/len(links)`, and zips
  the scratch directory into `Geodata_IMAC_<YYYYMMDD_HHMM>.zip`.

Python strings are modelled as Lean `String`s, with the string operations
the script uses (`upper`, `lower`, `strip`, `in`, `endswith`) given
explicit character-list models restricted to the ASCII behaviour the
script relies on.  Network and filesystem effects are passed in as
explicit oracles (`fetch`, `dl`), and `urllib.parse.urljoin` is an
abstract parameter `join`.
-/

namespace IMAC

/-- An anchor element extracted by `soup.find_all('a', href=True)`:
every modelled anchor carries an `href`, and `text` models
`link.get_text()` (before the `.strip()` the script applies). -/
structure Anchor where
  href : String
  text : String
deriving DecidableEq

/-- One entry of the hard-coded `tarefas` list: a source page with its
`alvos` mapping from match-term to desired output filename (Python dicts
iterate in insertion order, so the mapping is an ordered list of pairs). -/
structure Tarefa where
  nome : String
  url : String
  alvos : List (String × String)
deriving DecidableEq

/-- One element appended to `links_para_baixar`. -/
structure ResolvedLink where
  url : String
  filename : String
  origem : String
deriving DecidableEq

/-- ASCII model of Python `str.upper()` applied characterwise. -/
def upperL (l : List Char) : List Char := l.map Char.toUpper

/-- ASCII model of Python `str.lower()` applied characterwise. -/
def lowerL (l : List Char) : List Char := l.map Char.toLower

/-- Model of Python `needle in hay` (contiguous substring test). -/
def isInfixL (needle : List Char) : List Char → Bool
  | [] => needle.isEmpty
  | c :: rest => needle.isPrefixOf (c :: rest) || isInfixL needle rest

/-- Model of Python `l.endswith(suffix)`. -/
def endsWithL (l suffix : List Char) : Bool :=
  l.drop (l.length - suffix.length) == suffix

/-- Model of Python `str.strip()`: drop whitespace from both ends. -/
def stripL (l : List Char) : List Char :=
  ((l.dropWhile Char.isWhitespace).reverse.dropWhile Char.isWhitespace).reverse

/-- Line 86 of the script:
`match_found = (termo.upper() in href.upper()) or (termo.upper() in text.upper())`,
where `text = link.get_text().strip()`. -/
def matchFound (termo : String) (a : Anchor) : Bool :=
  isInfixL (upperL termo.toList) (upperL a.href.toList) ||
  isInfixL (upperL termo.toList) (upperL (stripL a.text.toList))

/-- Line 87 of the script: `is_zip = href.lower().endswith(('.zip', '.rar'))`. -/
def isZipHref (href : String) : Bool :=
  endsWithL (lowerL href.toList) ".zip".toList ||
  endsWithL (lowerL href.toList) ".rar".toList

/-- The guard of line 89: `if match_found and is_zip`. -/
def anchorMatches (termo : String) (a : Anchor) : Bool :=
  matchFound termo a && isZipHref a.href

/-- The inner anchor loop (lines 81–96) for one term: scan the page's
anchors in document order and on the first one passing `anchorMatches`
append `{url: urljoin(page, href), filename, origem}` and `break`. -/
def firstMatchLink (join : String → String → String)
    (pageUrl termo nome origem : String) : List Anchor → Option ResolvedLink
  | [] => none
  | a :: rest =>
    if anchorMatches termo a then some ⟨join pageUrl a.href, nome, origem⟩
    else firstMatchLink join pageUrl termo nome origem rest

/-- The effect of one term's anchor scan on the accumulator
`links_para_baixar`: the appended link if the scan found one, otherwise
the accumulator unchanged. -/
def appendOpt (acc : List ResolvedLink) (o : Option ResolvedLink) :
    List ResolvedLink :=
  match o with
  | some l => acc ++ [l]
  | none => acc

/-- The body of the `for tarefa in tarefas` loop (lines 73–100), acting on
the mutable accumulator `links_para_baixar`.  A raised fetch error
(`requests.get` failure, `raise_for_status`, parse error) is modelled by
`fetch t.url = none`: the `except` branch logs and `continue`s, leaving
the accumulator unchanged. -/
def resolveTarefa (join : String → String → String)
    (fetch : String → Option (List Anchor)) (acc : List ResolvedLink)
    (t : Tarefa) : List ResolvedLink :=
  match fetch t.url with
  | none => acc
  | some anchors =>
    t.alvos.foldl
      (fun acc2 p => appendOpt acc2 (firstMatchLink join t.url p.1 p.2 t.nome anchors))
      acc

/-- Model of `obter_links_download` (lines 44–102), with the configuration list,
the HTTP fetch and `urljoin` abstracted as parameters. -/
def obter_links_download (join : String → String → String)
    (fetch : String → Option (List Anchor)) (tarefas : List Tarefa) :
    List ResolvedLink :=
  tarefas.foldl (resolveTarefa join fetch) []

/-- The resolver instrumented with the list of page URLs the
loop issues `requests.get` against (exactly one GET per source, line 75). -/
def obterWithTrace (join : String → String → String)
    (fetch : String → Option (List Anchor)) (tarefas : List Tarefa) :
    List ResolvedLink × List String :=
  tarefas.foldl (fun st t => (resolveTarefa join fetch st.1 t, st.2 ++ [t.url]))
    ([], [])

/-- Declarative per-source result: the links one source contributes. -/
def tarefaLinks (join : String → String → String)
    (fetch : String → Option (List Anchor)) (t : Tarefa) : List ResolvedLink :=
  match fetch t.url with
  | none => []
  | some anchors =>
    t.alvos.filterMap (fun p => firstMatchLink join t.url p.1 p.2 t.nome anchors)

/-- Outcome of one `requests.get(url, stream=True)` download attempt in
`processar_downloads` (lines 127–130).  `ok c` : the whole body `c` is
streamed into the destination file.  `failEarly` : the attempt raises
before `open(path_destino, 'wb')` runs (connection error, timeout,
`raise_for_status` on a non-success status), so no file is created.
`failMid c` : `open` has already created the destination file and
`shutil.copyfileobj` raises after writing the bytes `c`, so the partially
written file remains in the scratch directory.  File contents are opaque
tokens modelled as `Nat`. -/
inductive DlResult where
  | ok (content : Nat)
  | failEarly
  | failMid (written : Nat)
deriving DecidableEq

/-- The scratch directory `download_dir` as a map from filename to file
content.  `open(path, 'wb')` truncates an existing file, so writing an
existing name replaces its content in place; a new name is appended. -/
def setFile (files : List (String × Nat)) (name : String) (c : Nat) :
    List (String × Nat) :=
  if files.any (fun p => p.1 == name) then
    files.map (fun p => if p.1 == name then (p.1, c) else p)
  else files ++ [(name, c)]

/-- Line 132: the log line appended on success. -/
def successLine (item : ResolvedLink) : String :=
  "✅ **" ++ item.filename ++ "**: Sucesso (" ++ item.origem ++ ")"

/-- Line 136: the log line appended on failure. -/
def failureLine (item : ResolvedLink) : String :=
  "❌ **" ++ item.filename ++ "**: Falha no download"

/-- A log line records a success exactly when it starts with the `✅` marker. -/
def isSuccessLine (s : String) : Bool := s.toList.take 1 == "✅".toList

/-- A log line records a failure exactly when it starts with the `❌` marker. -/
def isFailureLine (s : String) : Bool := s.toList.take 1 == "❌".toList

/-- Python division, which raises `ZeroDivisionError` on a zero divisor
(line 139 computes `(idx + 1) / len(lista_links)`). -/
def checkedDiv (a b : Nat) : Except String ℚ :=
  if b = 0 then .error "ZeroDivisionError: division by zero"
  else .ok ((a : ℚ) / (b : ℚ))

/-- Mutable state of the download loop: the scratch directory contents,
`log_execucao`, the progress values pushed to `progresso.progress`, and
`sucesso_count`. -/
structure PipeState where
  files : List (String × Nat)
  log : List String
  progress : List ℚ
  sucessoCount : Nat
deriving DecidableEq

/-- One iteration of the `for idx, item in enumerate(lista_links)` loop
(lines 120–139): attempt the download, record the log line, then report
progress `(idx + 1) / n` where `n = len(lista_links)`. -/
def stepItem (dl : String → DlResult) (n idx : Nat) (st : PipeState)
    (item : ResolvedLink) : Except String PipeState :=
  let st1 : PipeState :=
    match dl item.url with
    | .ok c =>
      { st with files := setFile st.files item.filename c,
                log := st.log ++ [successLine item],
                sucessoCount := st.sucessoCount + 1 }
    | .failEarly => { st with log := st.log ++ [failureLine item] }
    | .failMid c =>
      { st with files := setFile st.files item.filename c,
                log := st.log ++ [failureLine item] }
  match checkedDiv (idx + 1) n with
  | .error e => .error e
  | .ok q => .ok { st1 with progress := st1.progress ++ [q] }

/-- The whole download loop, threading the state through the links. -/
def runLoop (dl : String → DlResult) (n : Nat) :
    Nat → PipeState → List ResolvedLink → Except String PipeState
  | _, st, [] => .ok st
  | idx, st, item :: rest =>
    match stepItem dl n idx st item with
    | .error e => .error e
    | .ok st1 => runLoop dl n (idx + 1) st1 rest

/-- The timestamp `datetime.now()` truncated to the fields the script
formats with `strftime("%Y%m%d_%H%M")`. -/
structure DateTime where
  year : Nat
  month : Nat
  day : Nat
  hour : Nat
  minute : Nat

/-- The decimal digit character for `n < 10`. -/
def digitChar (n : Nat) : Char := Char.ofNat (48 + n)

/-- Fuelled unpadded decimal rendering (most significant digit first). -/
def decRepAux : Nat → Nat → List Char
  | 0, _ => []
  | fuel + 1, n =>
    if n < 10 then [digitChar n]
    else decRepAux fuel (n / 10) ++ [digitChar (n % 10)]

/-- Unpadded decimal rendering of a natural number, as `%Y` prints the
year (glibc `strftime` does not pad `%Y` below four digits). -/
def decRep (n : Nat) : List Char := decRepAux (n + 1) n

/-- Two-digit zero-padded rendering, as `%m`, `%d`, `%H`, `%M` print. -/
def pad2 (n : Nat) : List Char := if n < 10 then '0' :: decRep n else decRep n

/-- Model of `datetime.now().strftime("%Y%m%d_%H%M")` (line 142). -/
def stamp (d : DateTime) : List Char :=
  decRep d.year ++ pad2 d.month ++ pad2 d.day ++ ['_'] ++
    pad2 d.hour ++ pad2 d.minute

/-- Line 143: `nome_zip = f"Geodata_IMAC_{timestamp}"`. -/
def nomeZip (d : DateTime) : List Char := "Geodata_IMAC_".toList ++ stamp d

/-- The basename of the path `shutil.make_archive` returns:
`make_archive(base_name, format='zip', ...)` yields `base_name + ".zip"`
(lines 146–150); the scratch-directory prefix of the path is elided. -/
def archiveFileName (d : DateTime) : List Char := nomeZip d ++ ".zip".toList

/-- The triple `processar_downloads` returns: the archive filename, the
files `make_archive` packed from `download_dir`, the log, plus the
observed progress reports and the success counter. -/
structure BundleResult where
  archiveName : List Char
  files : List (String × Nat)
  log : List String
  progress : List ℚ
  sucessoCount : Nat
deriving DecidableEq

/-- Model of `processar_downloads` (lines 105–152): run the download loop, then
zip everything present in the scratch directory.  A `ZeroDivisionError`
from the progress computation would surface as `Except.error`. -/
def processar_downloads (dl : String → DlResult) (now : DateTime)
    (lista_links : List ResolvedLink) : Except String BundleResult :=
  match runLoop dl lista_links.length 0 ⟨[], [], [], 0⟩ lista_links with
  | .error e => .error e
  | .ok st => .ok ⟨archiveFileName now, st.files, st.log, st.progress, st.sucessoCount⟩

/-- The single process-wide slot `@st.cache_data` keeps for
`obter_links_download`: the memoized result and when it was computed. -/
structure CacheEntry where
  links : List ResolvedLink
  computedAt : Nat

/-- Modelled from the spec: the TTL memoization that `@st.cache_data(ttl=3600)`
wraps around `obter_links_download` is Streamlit library code, not part of
this repository; spec §4.2 describes it as a single-slot cache whose entry
is valid while `now - computedAt ≤ ttlSeconds` and recomputed (and the slot
replaced) otherwise.  `resolve` is the underlying scrape, which may depend
on the time at which it runs; the third component counts how many times the
underlying function was invoked (0 or 1). -/
def cachedCall (ttl : Nat) (resolve : Nat → List ResolvedLink) (now : Nat)
    (st : Option CacheEntry) : List ResolvedLink × Option CacheEntry × Nat :=
  match st with
  | some e =>
    if now - e.computedAt ≤ ttl then (e.links, some e, 0)
    else (resolve now, some ⟨resolve now, now⟩, 1)
  | none => (resolve now, some ⟨resolve now, now⟩, 1)

/-- A cache slot is fresh at `now` when it holds a non-expired entry. -/
def isFresh (ttl now : Nat) : Option CacheEntry → Bool
  | none => false
  | some e => decide (now - e.computedAt ≤ ttl)

/-! ### Concrete fixtures used by witnesses and counterexamples -/

/-- Plain concatenation stands in for `urljoin` in concrete scenarios. -/
def joinC : String → String → String := fun base href => base ++ href

def tarefaA : Tarefa :=
  ⟨"LICENCIAMENTO", "pageA/", [("SUPRESSAO", "imac_supressao.zip")]⟩

def tarefaB : Tarefa :=
  ⟨"FISCALIZACAO", "pageB/", [("EMBARGOS", "imac_embargos.zip")]⟩

/-- Source A's page request fails; source B's page holds one matching anchor. -/
def fetchAB : String → Option (List Anchor) := fun u =>
  if u = "pageB/" then some [⟨"embargos_2024.zip", "Embargos"⟩] else none

/-- An href that matches a term and whose URL path ends in `.zip`, but which
carries a query string, so the whole href does not end in `.zip`. -/
def cexAnchor : Anchor := ⟨"imac_supressao.zip?download=1", ""⟩

/-- An anchor matching a term in both href and text but pointing at a PDF. -/
def pdfAnchor : Anchor := ⟨"docs/licenciamento.pdf", "LICENCIAMENTO"⟩

def anchor1 : Anchor := ⟨"a/imac_supressao.zip", "primeiro"⟩

def anchor2 : Anchor := ⟨"b/imac_supressao.zip", "segundo"⟩

def tarefaD1 : Tarefa := ⟨"S1", "page/", [("D", "f1.zip")]⟩

def tarefaD2 : Tarefa := ⟨"S2", "page/", [("D", "f2.zip")]⟩

/-- Both duplicate-test sources scrape the same page with one anchor. -/
def fetchDup : String → Option (List Anchor) := fun u =>
  if u = "page/" then some [⟨"d.zip", "dados"⟩] else none

/-- One source with two terms, both matched by the page's single anchor. -/
def tarefaM : Tarefa := ⟨"S", "p/", [("A", "f1.zip"), ("B", "f2.zip")]⟩

def fetchM : String → Option (List Anchor) := fun u =>
  if u = "p/" then some [⟨"a_b.zip", "t"⟩] else none

/-! ### Spec-side definitions for refinement comparison -/

/-- The path component of an href: URL syntax ends the path at the first
`?` (query) or `#` (fragment). -/
def hrefPath (href : String) : String :=
  String.mk (href.toList.takeWhile (fun c => !(c == '?' || c == '#')))

/-- The selection rule exactly as the specification words it (§4.1 step 4):
the term occurs case-insensitively in the href or in the visible text, AND
the href's *path* ends in an archive extension (`.zip` or `.rar`,
case-insensitive).  Compare with `anchorMatches`, which tests the entire
href rather than its path. -/
def specSelects (termo : String) (a : Anchor) : Bool :=
  matchFound termo a &&
  (endsWithL (lowerL (hrefPath a.href).toList) ".zip".toList ||
   endsWithL (lowerL (hrefPath a.href).toList) ".rar".toList)

/-! ### Declarative views of the download loop -/

/-- Whether the download attempt for a link succeeds. -/
def isOkDl (dl : String → DlResult) (item : ResolvedLink) : Bool :=
  match dl item.url with
  | .ok _ => true
  | _ => false

/-- Whether the attempt leaves a file in the scratch directory: a full
download does, and so does a mid-stream failure (the destination file was
already created and keeps the bytes written before the error). -/
def writesFile : DlResult → Bool
  | .ok _ => true
  | .failMid _ => true
  | .failEarly => false

/-- The log line one link produces. -/
def logLineOf (dl : String → DlResult) (item : ResolvedLink) : String :=
  match dl item.url with
  | .ok _ => successLine item
  | _ => failureLine item

/-- The effect of one link's attempt on the scratch directory. -/
def fileWriteStep (dl : String → DlResult) (files : List (String × Nat))
    (item : ResolvedLink) : List (String × Nat) :=
  match dl item.url with
  | .ok c => setFile files item.filename c
  | .failEarly => files
  | .failMid c => setFile files item.filename c

/-- The progress reports emitted from position `idx` on, out of `n`. -/
def progressList (n : Nat) : Nat → List ResolvedLink → List ℚ
  | _, [] => []
  | idx, _ :: rest =>
    ((idx + 1 : Nat) : ℚ) / (n : ℚ) :: progressList n (idx + 1) rest

/-! ### The archive-name pattern and result projections -/

/-- Every character is a decimal digit. -/
def isDigits (l : List Char) : Bool := l.all Char.isDigit

/-- The spec's archive-name pattern `Geodata_IMAC_<8 digits>_<4 digits>.zip`. -/
def archiveNameOk (l : List Char) : Bool :=
  l.length == 30 &&
  l.take 13 == "Geodata_IMAC_".toList &&
  isDigits ((l.drop 13).take 8) &&
  (l.drop 21).take 1 == ['_'] &&
  isDigits ((l.drop 22).take 4) &&
  l.drop 26 == ".zip".toList

/-- Success count, failure count and archive filenames of a pipeline run. -/
def runStats (x : Except String BundleResult) : Nat × Nat × List String :=
  match x with
  | .ok r => (r.log.countP isSuccessLine, r.log.countP isFailureLine,
      r.files.map Prod.fst)
  | .error e => (0, 0, [e])

/-- The archived files of a pipeline run. -/
def filesOf (x : Except String BundleResult) : List (String × Nat) :=
  match x with
  | .ok r => r.files
  | .error _ => []

/-- The archive filename of a pipeline run. -/
def archiveOf (x : Except String BundleResult) : List Char :=
  match x with
  | .ok r => r.archiveName
  | .error _ => []

/-! ### Pipeline and cache fixtures -/

def lkA : ResolvedLink := ⟨"u1", "a.zip", "S"⟩

def lkB : ResolvedLink := ⟨"u2", "b.zip", "S"⟩

def lkC : ResolvedLink := ⟨"u3", "c.zip", "T"⟩

def lkF1 : ResolvedLink := ⟨"u1", "f.zip", "S"⟩

def lkF2 : ResolvedLink := ⟨"u3", "f.zip", "T"⟩

def dateC : DateTime := ⟨2026, 10, 12, 14, 5⟩

/-- Oracle where the `u2` download dies mid-stream after 9 opaque bytes. -/
def dlMid : String → DlResult := fun u =>
  if u = "u2" then .failMid 9 else if u = "u1" then .ok 1 else .ok 3

/-- Oracle where the `u2` download fails before its file is created. -/
def dlE : String → DlResult := fun u =>
  if u = "u2" then .failEarly else if u = "u1" then .ok 1 else .ok 3

/-- A time-dependent scrape: later invocations see an empty site. -/
def resC : Nat → List ResolvedLink := fun t =>
  if t = 0 then [⟨"x", "x.zip", "S"⟩] else []

/-- First cache call at time 0 on an empty slot. -/
def cacheCall1 : List ResolvedLink × Option CacheEntry × Nat :=
  cachedCall 3600 resC 0 none

/-- Second cache call at time 3600, inside the TTL window of the first. -/
def cacheCall2 : List ResolvedLink × Option CacheEntry × Nat :=
  cachedCall 3600 resC 3600 cacheCall1.2.1

/-! ### Structural lemmas about the link resolver -/

theorem firstMatchLink_eq_find (join : String → String → String)
    (pageUrl termo nome origem : String) (anchors : List Anchor) :
    firstMatchLink join pageUrl termo nome origem anchors =
      (anchors.find? (anchorMatches termo)).map
        (fun a => ⟨join pageUrl a.href, nome, origem⟩) := by
  induction anchors with
  | nil => rfl
  | cons a rest ih =>
    by_cases h : anchorMatches termo a = true
    · simp [firstMatchLink, List.find?_cons, h]
    · simp only [Bool.not_eq_true] at h
      simp [firstMatchLink, List.find?_cons, h, ih]

theorem foldl_appendOpt {α : Type} (g : α → Option ResolvedLink) :
    ∀ (l : List α) (acc : List ResolvedLink),
      l.foldl (fun acc2 p => appendOpt acc2 (g p)) acc = acc ++ l.filterMap g
  | [], acc => by simp
  | p :: l, acc => by
    rw [List.foldl_cons, foldl_appendOpt g l]
    cases hg : g p <;>
      simp [List.filterMap_cons, hg, appendOpt, List.append_assoc]

theorem resolveTarefa_eq (join : String → String → String)
    (fetch : String → Option (List Anchor)) (acc : List ResolvedLink)
    (t : Tarefa) :
    resolveTarefa join fetch acc t = acc ++ tarefaLinks join fetch t := by
  cases hf : fetch t.url with
  | none => simp [resolveTarefa, tarefaLinks, hf]
  | some anchors =>
    simp [resolveTarefa, tarefaLinks, hf,
      foldl_appendOpt
        (fun p : String × String => firstMatchLink join t.url p.1 p.2 t.nome anchors)]

theorem obter_eq_flatMap (join : String → String → String)
    (fetch : String → Option (List Anchor)) (tarefas : List Tarefa) :
    obter_links_download join fetch tarefas =
      tarefas.flatMap (tarefaLinks join fetch) := by
  suffices h : ∀ (ts : List Tarefa) (acc : List ResolvedLink),
      ts.foldl (resolveTarefa join fetch) acc =
        acc ++ ts.flatMap (tarefaLinks join fetch) by
    simpa [obter_links_download] using h tarefas []
  intro ts
  induction ts with
  | nil => simp
  | cons t ts ih =>
    intro acc
    simp [List.flatMap_cons, resolveTarefa_eq, ih, List.append_assoc]

theorem obterWithTrace_spec (join : String → String → String)
    (fetch : String → Option (List Anchor)) (tarefas : List Tarefa) :
    obterWithTrace join fetch tarefas =
      (obter_links_download join fetch tarefas,
        tarefas.map (fun t => t.url)) := by
  suffices h : ∀ (ts : List Tarefa) (st : List ResolvedLink × List String),
      ts.foldl (fun st t => (resolveTarefa join fetch st.1 t, st.2 ++ [t.url])) st =
        (ts.foldl (resolveTarefa join fetch) st.1, st.2 ++ ts.map (fun t => t.url)) by
    simpa [obterWithTrace, obter_links_download] using h tarefas ([], [])
  intro ts
  induction ts with
  | nil => simp
  | cons t ts ih => intro st; simp [ih, List.append_assoc]

theorem tarefaLinks_of_fail (join : String → String → String)
    (fetch : String → Option (List Anchor)) (t : Tarefa)
    (hf : fetch t.url = none) : tarefaLinks join fetch t = [] := by
  simp [tarefaLinks, hf]

theorem flatMap_tarefaLinks_filter (join : String → String → String)
    (fetch : String → Option (List Anchor)) :
    ∀ ts : List Tarefa,
      ts.flatMap (tarefaLinks join fetch) =
        (ts.filter (fun t => (fetch t.url).isSome)).flatMap
          (tarefaLinks join fetch)
  | [] => rfl
  | t :: ts => by
    cases hf : fetch t.url <;>
      simp [List.flatMap_cons, List.filter_cons, hf, tarefaLinks,
        flatMap_tarefaLinks_filter join fetch ts]

theorem filterMap_all_some {α β : Type} (g : α → Option β) (f : α → β) :
    ∀ l : List α, (∀ p ∈ l, g p = some (f p)) → l.filterMap g = l.map f
  | [], _ => rfl
  | p :: l, h => by
    have hp := h p (by simp)
    simp [List.filterMap_cons, hp,
      filterMap_all_some g f l (fun q hq => h q (by simp [hq]))]

/-! ### Claim theorems about the link resolver -/

/-- Claim C2: if fetching one source's page fails, discovery yields zero
links for that source, raises no fault (the resolver is a total function),
and the combined result is exactly the concatenation of the links matched
from the sources whose fetch succeeded, in source order. -/
theorem resolver_source_isolation (join : String → String → String)
    (fetch : String → Option (List Anchor)) (ts : List Tarefa) (t : Tarefa)
    (hmem : t ∈ ts) (hfail : fetch t.url = none) :
    tarefaLinks join fetch t = [] ∧
    obter_links_download join fetch ts =
      (ts.filter (fun u => (fetch u.url).isSome)).flatMap
        (tarefaLinks join fetch) := by
  have _ := hmem
  exact ⟨tarefaLinks_of_fail join fetch t hfail,
    (obter_eq_flatMap join fetch ts).trans (flatMap_tarefaLinks_filter join fetch ts)⟩

/-- Witness for C2: source A fails, source B succeeds; the combined result
holds exactly B's matched link and A contributes nothing. -/
theorem resolver_source_isolation_witness :
    tarefaLinks joinC fetchAB tarefaA = [] ∧
    obter_links_download joinC fetchAB [tarefaA, tarefaB] =
      [⟨"pageB/embargos_2024.zip", "imac_embargos.zip", "FISCALIZACAO"⟩] := by
  have h := resolver_source_isolation joinC fetchAB [tarefaA, tarefaB] tarefaA
    (by decide) (by decide)
  refine ⟨h.1, ?_⟩
  rw [h.2]
  decide

/-- Counterexample to C3: for the anchor `cexAnchor` and term
`"SUPRESSAO"`, the claimed selection rule (term matches and the href's
URL path ends in `.zip`) says *selected*, but the code does not select
it, because the code tests the entire href — query string included —
against `.zip`/`.rar`. -/
theorem anchor_match_path_cex :
    specSelects "SUPRESSAO" cexAnchor = true ∧
    anchorMatches "SUPRESSAO" cexAnchor = false := by decide

/-- Claim C3 (amended): the resolver's per-anchor candidacy test holds iff
the term occurs case-insensitively in the href or in the (stripped)
visible text AND the *entire href* ends case-insensitively in `.zip` or
`.rar`; in particular an anchor whose href ends in `.pdf` is never a
candidate. -/
theorem anchor_match_rule :
    (∀ termo a, anchorMatches termo a = true ↔
      ((isInfixL (upperL termo.toList) (upperL a.href.toList) = true ∨
        isInfixL (upperL termo.toList) (upperL (stripL a.text.toList)) = true) ∧
       (endsWithL (lowerL a.href.toList) ".zip".toList = true ∨
        endsWithL (lowerL a.href.toList) ".rar".toList = true))) ∧
    (∀ termo a, endsWithL (lowerL a.href.toList) ".pdf".toList = true →
      anchorMatches termo a = false) := by
  constructor
  · intro termo a
    simp [anchorMatches, matchFound, isZipHref, Bool.and_eq_true, Bool.or_eq_true]
  · intro termo a h
    have e1 : ".pdf".toList = ['.', 'p', 'd', 'f'] := rfl
    have e2 : ".zip".toList = ['.', 'z', 'i', 'p'] := rfl
    have e3 : ".rar".toList = ['.', 'r', 'a', 'r'] := rfl
    have h4 : (lowerL a.href.toList).drop ((lowerL a.href.toList).length - 4) =
        ['.', 'p', 'd', 'f'] := by
      rw [endsWithL, e1] at h
      simpa using beq_iff_eq.mp (by simpa using h)
    have hzip : isZipHref a.href = false := by
      rw [isZipHref, endsWithL, endsWithL, e2, e3]
      simp only [List.length_cons, List.length_nil]
      rw [h4]
      decide
    simp [anchorMatches, hzip]

/-- Witness for C3 (amended): a PDF anchor matching the term is rejected. -/
theorem anchor_match_rule_witness :
    anchorMatches "LICENCIAMENTO" pdfAnchor = false :=
  anchor_match_rule.2 "LICENCIAMENTO" pdfAnchor (by decide)

/-- Claim C4: for each term the resolver emits at most one `ResolvedLink`,
built from the *first* anchor in document order passing `anchorMatches`
(its href resolved against the page URL), and in particular with two
candidate anchors the first wins and the second is ignored. -/
theorem resolver_first_match_wins :
    (∀ (join : String → String → String) (pageUrl termo nome origem : String)
        (anchors : List Anchor),
      firstMatchLink join pageUrl termo nome origem anchors =
        (anchors.find? (anchorMatches termo)).map
          (fun a => ⟨join pageUrl a.href, nome, origem⟩)) ∧
    (∀ (join : String → String → String) (pageUrl termo nome origem : String)
        (a1 a2 : Anchor) (rest : List Anchor),
      anchorMatches termo a1 = true →
      firstMatchLink join pageUrl termo nome origem (a1 :: a2 :: rest) =
        some ⟨join pageUrl a1.href, nome, origem⟩) := by
  refine ⟨firstMatchLink_eq_find, ?_⟩
  intro join pageUrl termo nome origem a1 a2 rest h
  simp [firstMatchLink, h]

/-- Witness for C4: two anchors both match `"SUPRESSAO"`; the first in
document order is selected and resolved against the page URL. -/
theorem resolver_first_match_wins_witness :
    firstMatchLink joinC "p/" "SUPRESSAO" "imac_supressao.zip" "LICENCIAMENTO"
        [anchor1, anchor2] =
      some ⟨"p/a/imac_supressao.zip", "imac_supressao.zip", "LICENCIAMENTO"⟩ :=
  resolver_first_match_wins.2 joinC "p/" "SUPRESSAO" "imac_supressao.zip"
    "LICENCIAMENTO" anchor1 anchor2 [] (by decide)

/-- Claim C7: the resolver's output is the concatenation, in source
iteration order, of each source's links in target-term iteration order;
and no deduplication is applied across sources — the same URL can occur
twice (with the two configured filenames). -/
theorem resolver_order_no_dedup :
    (∀ (join : String → String → String)
        (fetch : String → Option (List Anchor)) (ts : List Tarefa),
      obter_links_download join fetch ts = ts.flatMap (tarefaLinks join fetch)) ∧
    (∃ (join : String → String → String)
        (fetch : String → Option (List Anchor)) (ts : List Tarefa)
        (r1 r2 : ResolvedLink),
      obter_links_download join fetch ts = [r1, r2] ∧
      r1.url = r2.url ∧ r1.filename ≠ r2.filename) := by
  refine ⟨obter_eq_flatMap, joinC, fetchDup, [tarefaD1, tarefaD2],
    ⟨"page/d.zip", "f1.zip", "S1"⟩, ⟨"page/d.zip", "f2.zip", "S2"⟩,
    by decide, rfl, by decide⟩

/-- Claim C10: within one source, a single anchor that is the first match
for several terms is emitted once per term: same absolute URL, one
`ResolvedLink` per configured term with that term's output filename. -/
theorem resolver_term_no_dedup (join : String → String → String)
    (fetch : String → Option (List Anchor)) (t : Tarefa)
    (anchors : List Anchor) (a : Anchor)
    (hf : fetch t.url = some anchors)
    (hall : ∀ p ∈ t.alvos, anchors.find? (anchorMatches p.1) = some a) :
    obter_links_download join fetch [t] =
      t.alvos.map (fun p => ⟨join t.url a.href, p.2, t.nome⟩) := by
  rw [obter_eq_flatMap]
  simp only [List.flatMap_cons, List.flatMap_nil, List.append_nil]
  simp only [tarefaLinks, hf]
  rw [filterMap_all_some _
    (fun p : String × String => (⟨join t.url a.href, p.2, t.nome⟩ : ResolvedLink))]
  intro p hp
  rw [firstMatchLink_eq_find, hall p hp]
  rfl

/-- Witness for C10: one anchor matches both terms of a source; the result
has the same URL twice under the two output filenames. -/
theorem resolver_term_no_dedup_witness :
    obter_links_download joinC fetchM [tarefaM] =
      [⟨"p/a_b.zip", "f1.zip", "S"⟩, ⟨"p/a_b.zip", "f2.zip", "S"⟩] := by
  have h := resolver_term_no_dedup joinC fetchM tarefaM [⟨"a_b.zip", "t"⟩]
    ⟨"a_b.zip", "t"⟩ (by decide) (by decide)
  rw [h]
  decide

/-! ### Structural lemmas about the download pipeline -/

theorem runLoop_ok (dl : String → DlResult) (n : Nat) (hn : n ≠ 0) :
    ∀ (l : List ResolvedLink) (idx : Nat) (st : PipeState),
      runLoop dl n idx st l = Except.ok
        ⟨l.foldl (fileWriteStep dl) st.files,
         st.log ++ l.map (logLineOf dl),
         st.progress ++ progressList n idx l,
         st.sucessoCount + l.countP (isOkDl dl)⟩ := by
  intro l
  induction l with
  | nil => intro idx st; simp [runLoop, progressList]
  | cons item rest ih =>
    intro idx st
    cases hdl : dl item.url with
    | ok c =>
      simp only [runLoop, stepItem, hdl, checkedDiv, if_neg hn]
      rw [ih]
      simp [fileWriteStep, hdl, logLineOf, isOkDl, progressList,
        List.countP_cons, List.append_assoc, PipeState.mk.injEq]
      omega
    | failEarly =>
      simp only [runLoop, stepItem, hdl, checkedDiv, if_neg hn]
      rw [ih]
      simp [fileWriteStep, hdl, logLineOf, isOkDl, progressList,
        List.countP_cons, List.append_assoc, PipeState.mk.injEq]
    | failMid c =>
      simp only [runLoop, stepItem, hdl, checkedDiv, if_neg hn]
      rw [ih]
      simp [fileWriteStep, hdl, logLineOf, isOkDl, progressList,
        List.countP_cons, List.append_assoc, PipeState.mk.injEq]

/-- `processar_downloads` never raises: for every input it returns the
bundle assembled from the per-link outcomes. -/
theorem processar_eq (dl : String → DlResult) (now : DateTime)
    (links : List ResolvedLink) :
    processar_downloads dl now links = Except.ok
      ⟨archiveFileName now,
       links.foldl (fileWriteStep dl) [],
       links.map (logLineOf dl),
       progressList links.length 0 links,
       links.countP (isOkDl dl)⟩ := by
  cases links with
  | nil => rfl
  | cons item rest =>
    rw [processar_downloads,
      runLoop_ok dl (item :: rest).length (by simp) (item :: rest) 0 ⟨[], [], [], 0⟩]
    simp

theorem mem_keys_setFile (files : List (String × Nat)) (name : String)
    (c : Nat) (f : String) :
    f ∈ (setFile files name c).map Prod.fst ↔
      f ∈ files.map Prod.fst ∨ f = name := by
  unfold setFile
  by_cases h : files.any (fun p => p.1 == name)
  · simp only [if_pos h]
    have hkeys : (files.map (fun p => if p.1 == name then (p.1, c) else p)).map
        Prod.fst = files.map Prod.fst := by
      rw [List.map_map]
      apply List.map_congr_left
      intro p _
      by_cases hpn : p.1 = name <;> simp [hpn, beq_iff_eq]
    rw [hkeys]
    constructor
    · exact Or.inl
    · rintro (hf | rfl)
      · exact hf
      · rcases List.any_eq_true.mp h with ⟨p, hp, hpn⟩
        exact List.mem_map.mpr ⟨p, hp, beq_iff_eq.mp hpn⟩
  · simp only [if_neg h]
    simp

theorem mem_keys_foldl (dl : String → DlResult) :
    ∀ (links : List ResolvedLink) (files : List (String × Nat)) (f : String),
      f ∈ ((links.foldl (fileWriteStep dl) files).map Prod.fst) ↔
        f ∈ files.map Prod.fst ∨
          ∃ l ∈ links, f = l.filename ∧ writesFile (dl l.url) = true
  | [], files, f => by simp
  | item :: rest, files, f => by
    rw [List.foldl_cons, mem_keys_foldl dl rest]
    cases hdl : dl item.url with
    | ok c =>
      simp only [fileWriteStep, hdl]
      rw [mem_keys_setFile]
      simp [writesFile, hdl, or_assoc]
    | failEarly =>
      simp [fileWriteStep, hdl, writesFile]
    | failMid c =>
      simp only [fileWriteStep, hdl]
      rw [mem_keys_setFile]
      simp [writesFile, hdl, or_assoc]

theorem isSuccessLine_logLineOf (dl : String → DlResult) (item : ResolvedLink) :
    isSuccessLine (logLineOf dl item) = isOkDl dl item := by
  have hs : "✅ **".data = '✅' :: ' ' :: '*' :: '*' :: [] := rfl
  have hf : "❌ **".data = '❌' :: ' ' :: '*' :: '*' :: [] := rfl
  cases hdl : dl item.url <;>
    simp [logLineOf, hdl, isOkDl, isSuccessLine, successLine, failureLine,
      String.toList, String.data_append, hs, hf]

theorem isFailureLine_logLineOf (dl : String → DlResult) (item : ResolvedLink) :
    isFailureLine (logLineOf dl item) = !(isOkDl dl item) := by
  have hs : "✅ **".data = '✅' :: ' ' :: '*' :: '*' :: [] := rfl
  have hf : "❌ **".data = '❌' :: ' ' :: '*' :: '*' :: [] := rfl
  cases hdl : dl item.url <;>
    simp [logLineOf, hdl, isOkDl, isFailureLine, successLine, failureLine,
      String.toList, String.data_append, hs, hf]

/-! ### Claim theorems about the download pipeline -/

/-- Counterexample to C1: on three links where the second download dies
mid-stream (`dlMid`), the run records 2 success outcomes and 1 failure
outcome, yet the archive holds *three* files — the partially written
`b.zip` of the failed download is present in the scratch directory and is
zipped too, so the archive does not contain exactly the files of the
successful downloads (`a.zip`, `c.zip`). -/
theorem pipeline_partial_cex :
    runStats (processar_downloads dlMid dateC [lkA, lkB, lkC]) =
      (2, 1, ["a.zip", "b.zip", "c.zip"]) ∧
    dlMid lkB.url = DlResult.failMid 9 := by decide

/-- Claim C1 (amended): for every input sequence, the pipeline records
exactly one outcome per link (success for succeeded links, failure for
failed ones) in input order, never aborts the loop; and the archive
contains exactly the files of the successful downloads *provided* every
failed download fails before its destination file is created — a
mid-stream failure additionally leaves its partially written file in the
archive. -/
theorem pipeline_partial_resilience (dl : String → DlResult) (now : DateTime)
    (links : List ResolvedLink) :
    ∃ r, processar_downloads dl now links = Except.ok r ∧
      r.log = links.map (logLineOf dl) ∧
      r.log.length = links.length ∧
      r.log.countP isSuccessLine = links.countP (isOkDl dl) ∧
      r.log.countP isFailureLine = links.countP (fun l => !(isOkDl dl l)) ∧
      ((∀ l ∈ links, ∀ c, dl l.url ≠ DlResult.failMid c) →
        ∀ f, f ∈ r.files.map Prod.fst ↔
          f ∈ (links.filter (isOkDl dl)).map (fun l => l.filename)) := by
  refine ⟨_, processar_eq dl now links, rfl, by simp, ?_, ?_, ?_⟩
  · rw [List.countP_map]
    exact List.countP_congr fun l _ => by
      simp [Function.comp, isSuccessLine_logLineOf]
  · rw [List.countP_map]
    exact List.countP_congr fun l _ => by
      simp [Function.comp, isFailureLine_logLineOf]
  · intro hmid f
    show f ∈ ((links.foldl (fileWriteStep dl) []).map Prod.fst) ↔ _
    rw [mem_keys_foldl]
    simp only [List.map_nil, List.not_mem_nil, false_or]
    constructor
    · rintro ⟨l, hl, rfl, hw⟩
      refine List.mem_map.mpr ⟨l, List.mem_filter.mpr ⟨hl, ?_⟩, rfl⟩
      cases hdl : dl l.url with
      | ok c => simp [isOkDl, hdl]
      | failEarly => rw [hdl] at hw; simp [writesFile] at hw
      | failMid c => exact absurd hdl (hmid l hl c)
    · intro hmem
      rcases List.mem_map.mp hmem with ⟨l, hl, rfl⟩
      rcases List.mem_filter.mp hl with ⟨hmeml, hok⟩
      refine ⟨l, hmeml, rfl, ?_⟩
      cases hdl : dl l.url with
      | ok c => rfl
      | failEarly => simp [isOkDl, hdl] at hok
      | failMid c => exact absurd hdl (hmid l hmeml c)

/-- Witness for C1 (amended): three links, the second failing before its
file is created; 2 success outcomes, 1 failure outcome, and the archive
holds exactly the two successful files. -/
theorem pipeline_partial_resilience_witness :
    runStats (processar_downloads dlE dateC [lkA, lkB, lkC]) =
      (2, 1, ["a.zip", "c.zip"]) := by
  obtain ⟨r, hr, hlog, hlen, hsc, hfc, hfiles⟩ :=
    pipeline_partial_resilience dlE dateC [lkA, lkB, lkC]
  have hmid : ∀ l ∈ [lkA, lkB, lkC], ∀ c, dlE l.url ≠ DlResult.failMid c := by
    have hv1 : dlE lkA.url = DlResult.ok 1 := by decide
    have hv2 : dlE lkB.url = DlResult.failEarly := by decide
    have hv3 : dlE lkC.url = DlResult.ok 3 := by decide
    intro l hl c
    fin_cases hl <;> simp [hv1, hv2, hv3]
  have hiff := hfiles hmid "b.zip"
  have hX := (processar_eq dlE dateC [lkA, lkB, lkC]).symm.trans hr
  injection hX with hX
  subst hX
  rw [hr]
  decide

/-- Claim C6: on the empty link sequence the pipeline performs no progress
division, raises nothing, and returns a result with zero outcomes, no
files, no progress reports, and a valid (empty-content) archive. -/
theorem pipeline_empty_input (dl : String → DlResult) (now : DateTime) :
    processar_downloads dl now [] =
      Except.ok ⟨archiveFileName now, [], [], [], 0⟩ := rfl

/-- Claim C9: two links mapping to the same output filename, both
succeeding: the second download overwrites the first file in the scratch
directory, so the archive holds a single file carrying the content of the
last successful download, while both links still log success. -/
theorem pipeline_overwrite (dl : String → DlResult) (now : DateTime)
    (l1 l2 : ResolvedLink) (c1 c2 : Nat)
    (hname : l1.filename = l2.filename)
    (h1 : dl l1.url = DlResult.ok c1) (h2 : dl l2.url = DlResult.ok c2) :
    ∃ r, processar_downloads dl now [l1, l2] = Except.ok r ∧
      r.files = [(l2.filename, c2)] ∧
      r.log = [successLine l1, successLine l2] := by
  refine ⟨_, processar_eq dl now [l1, l2], ?_, ?_⟩
  · show ([l1, l2].foldl (fileWriteStep dl) []) = _
    simp [fileWriteStep, h1, h2, setFile, hname]
  · show [l1, l2].map (logLineOf dl) = _
    simp [logLineOf, h1, h2]

/-- Witness for C9: `lkF1` and `lkF2` both write `f.zip`; after both
succeed the archive holds only the second's content. -/
theorem pipeline_overwrite_witness :
    filesOf (processar_downloads dlE dateC [lkF1, lkF2]) = [("f.zip", 3)] := by
  obtain ⟨r, hr, hfiles, hlog⟩ :=
    pipeline_overwrite dlE dateC lkF1 lkF2 1 3 (by decide) (by decide) (by decide)
  rw [hr]
  simp only [filesOf]
  exact hfiles

/-! ### Decimal rendering and the archive-name pattern -/

theorem decRepAux_congr (f1 : Nat) :
    ∀ n, n < f1 → ∀ f2, n < f2 → decRepAux f1 n = decRepAux f2 n := by
  induction f1 with
  | zero => intro n h; omega
  | succ f ih =>
    intro n h f2 h2
    cases f2 with
    | zero => omega
    | succ g =>
      by_cases h10 : n < 10
      · simp [decRepAux, h10]
      · have hlt : n / 10 < n := Nat.div_lt_self (by omega) (by omega)
        simp only [decRepAux, if_neg h10]
        rw [ih (n / 10) (by omega) g (by omega)]

theorem decRep_unfold (n : Nat) (h : 10 ≤ n) :
    decRep n = decRep (n / 10) ++ [digitChar (n % 10)] := by
  have hlt : n / 10 < n := Nat.div_lt_self (by omega) (by omega)
  rw [decRep, decRep]
  conv_lhs => rw [decRepAux]
  rw [if_neg (by omega : ¬ n < 10)]
  rw [decRepAux_congr n (n / 10) (by omega) (n / 10 + 1) (by omega)]

theorem decRep_lt10 (n : Nat) (h : n < 10) : decRep n = [digitChar n] := by
  rw [decRep]
  simp [decRepAux, h]

theorem decRep_two (n : Nat) (h10 : 10 ≤ n) (h99 : n ≤ 99) :
    decRep n = [digitChar (n / 10), digitChar (n % 10)] := by
  rw [decRep_unfold n h10, decRep_lt10 (n / 10) (by omega)]
  rfl

theorem decRep_four (y : Nat) (h1 : 1000 ≤ y) (h2 : y ≤ 9999) :
    decRep y = [digitChar (y / 1000), digitChar (y / 100 % 10),
      digitChar (y / 10 % 10), digitChar (y % 10)] := by
  have e10 : y / 10 / 10 = y / 100 := by omega
  have e100 : y / 100 / 10 = y / 1000 := by omega
  rw [decRep_unfold y (by omega), decRep_unfold (y / 10) (by omega), e10,
    decRep_unfold (y / 100) (by omega), e100, decRep_lt10 (y / 1000) (by omega)]
  rfl

theorem digitChar_isDigit (m : Nat) (h : m < 10) :
    (digitChar m).isDigit = true := by
  interval_cases m <;> decide

theorem decRep_year_len (y : Nat) (h1 : 1000 ≤ y) (h2 : y ≤ 9999) :
    (decRep y).length = 4 := by
  rw [decRep_four y h1 h2]
  rfl

theorem decRep_year_digits (y : Nat) (h1 : 1000 ≤ y) (h2 : y ≤ 9999) :
    isDigits (decRep y) = true := by
  rw [decRep_four y h1 h2]
  simp [isDigits, digitChar_isDigit (y / 1000) (by omega),
    digitChar_isDigit (y / 100 % 10) (by omega),
    digitChar_isDigit (y / 10 % 10) (by omega),
    digitChar_isDigit (y % 10) (by omega)]

theorem pad2_len (n : Nat) (h : n ≤ 99) : (pad2 n).length = 2 := by
  by_cases h10 : n < 10
  · simp [pad2, h10, decRep_lt10 n h10]
  · simp [pad2, h10, decRep_two n (by omega) h]

theorem pad2_digits (n : Nat) (h : n ≤ 99) : isDigits (pad2 n) = true := by
  by_cases h10 : n < 10
  · simp [pad2, h10, decRep_lt10 n h10, isDigits, digitChar_isDigit n h10]
  · simp [pad2, h10, decRep_two n (by omega) h, isDigits,
      digitChar_isDigit (n / 10) (by omega), digitChar_isDigit (n % 10) (by omega)]

/-- The generated archive filename decomposed into its fixed prefix, the
date digits, the underscore, the time digits and the extension. -/
theorem archiveName_structure (now : DateTime)
    (h1 : 1000 ≤ now.year) (h2 : now.year ≤ 9999) (hm : now.month ≤ 99)
    (hd : now.day ≤ 99) (hh : now.hour ≤ 99) (hmin : now.minute ≤ 99) :
    archiveNameOk (archiveFileName now) = true ∧
    ((archiveFileName now).drop 13).take 8 =
      decRep now.year ++ pad2 now.month ++ pad2 now.day ∧
    ((archiveFileName now).drop 22).take 4 = pad2 now.hour ++ pad2 now.minute := by
  have hP : ("Geodata_IMAC_".toList).length = 13 := by decide
  have hZ : (".zip".toList).length = 4 := by decide
  have hA : (decRep now.year ++ pad2 now.month ++ pad2 now.day).length = 8 := by
    simp [List.length_append, decRep_year_len now.year h1 h2,
      pad2_len now.month hm, pad2_len now.day hd]
  have hEF : (pad2 now.hour ++ pad2 now.minute).length = 4 := by
    simp [List.length_append, pad2_len now.hour hh, pad2_len now.minute hmin]
  have hflat : archiveFileName now =
      "Geodata_IMAC_".toList ++
        ((decRep now.year ++ pad2 now.month ++ pad2 now.day) ++
          (['_'] ++ ((pad2 now.hour ++ pad2 now.minute) ++ ".zip".toList))) := by
    simp [archiveFileName, nomeZip, stamp, List.append_assoc]
  have hd13 : (archiveFileName now).drop 13 =
      (decRep now.year ++ pad2 now.month ++ pad2 now.day) ++
        (['_'] ++ ((pad2 now.hour ++ pad2 now.minute) ++ ".zip".toList)) := by
    rw [hflat, List.drop_left' hP]
  have ht8 : ((archiveFileName now).drop 13).take 8 =
      decRep now.year ++ pad2 now.month ++ pad2 now.day := by
    rw [hd13, List.take_left' hA]
  have hd21 : (archiveFileName now).drop 21 =
      '_' :: ((pad2 now.hour ++ pad2 now.minute) ++ ".zip".toList) := by
    have : (21 : Nat) = 13 + 8 := by omega
    rw [this, ← List.drop_drop, hd13, List.drop_left' hA]
    rfl
  have hd22 : (archiveFileName now).drop 22 =
      (pad2 now.hour ++ pad2 now.minute) ++ ".zip".toList := by
    have : (22 : Nat) = 21 + 1 := by omega
    rw [this, ← List.drop_drop, hd21]
    rfl
  have ht4 : ((archiveFileName now).drop 22).take 4 =
      pad2 now.hour ++ pad2 now.minute := by
    rw [hd22, List.take_left' hEF]
  have hd26 : (archiveFileName now).drop 26 = ".zip".toList := by
    have : (26 : Nat) = 22 + 4 := by omega
    rw [this, ← List.drop_drop, hd22, List.drop_left' hEF]
  refine ⟨?_, ht8, ht4⟩
  have hlen : (archiveFileName now).length = 30 := by
    rw [hflat]
    simp only [List.length_append, List.length_cons, List.length_nil, hP, hZ]
    rw [decRep_year_len now.year h1 h2, pad2_len now.month hm, pad2_len now.day hd,
      pad2_len now.hour hh, pad2_len now.minute hmin]
  have htake13 : (archiveFileName now).take 13 = "Geodata_IMAC_".toList := by
    rw [hflat, List.take_left' hP]
  have hdig8 : isDigits (((archiveFileName now).drop 13).take 8) = true := by
    rw [ht8]
    simp only [isDigits, List.all_append, Bool.and_eq_true] at *
    exact ⟨⟨decRep_year_digits now.year h1 h2, pad2_digits now.month hm⟩,
      pad2_digits now.day hd⟩
  have hdig4 : isDigits (((archiveFileName now).drop 22).take 4) = true := by
    rw [ht4]
    simp only [isDigits, List.all_append, Bool.and_eq_true]
    exact ⟨pad2_digits now.hour hh, pad2_digits now.minute hmin⟩
  have htake1 : ((archiveFileName now).drop 21).take 1 = ['_'] := by
    rw [hd21]
    rfl
  rw [archiveNameOk]
  simp [hlen, htake13, hdig8, hdig4, htake1, hd26]

/-- Claim C8: the archive filename of every pipeline run matches
`Geodata_IMAC_<8 digits>_<4 digits>.zip`, the eight digits being the
formatted year-month-day and the four digits the formatted hour-minute of
the current timestamp. -/
theorem archive_naming (dl : String → DlResult) (now : DateTime)
    (links : List ResolvedLink) (r : BundleResult)
    (hrun : processar_downloads dl now links = Except.ok r)
    (h1 : 1000 ≤ now.year) (h2 : now.year ≤ 9999) (hm : now.month ≤ 99)
    (hd : now.day ≤ 99) (hh : now.hour ≤ 99) (hmin : now.minute ≤ 99) :
    archiveNameOk r.archiveName = true ∧
    (r.archiveName.drop 13).take 8 =
      decRep now.year ++ pad2 now.month ++ pad2 now.day ∧
    (r.archiveName.drop 22).take 4 = pad2 now.hour ++ pad2 now.minute := by
  have hX := (processar_eq dl now links).symm.trans hrun
  injection hX with hX
  have hname : r.archiveName = archiveFileName now := by rw [← hX]
  rw [hname]
  exact archiveName_structure now h1 h2 hm hd hh hmin

/-- Witness for C8: a concrete run at 2026-10-12 14:05 produces
`Geodata_IMAC_20261012_1405.zip`, which matches the pattern. -/
theorem archive_naming_witness :
    archiveNameOk (archiveOf (processar_downloads dlE dateC [])) = true := by
  have h := archive_naming dlE dateC [] ⟨archiveFileName dateC, [], [], [], 0⟩
    rfl (by decide) (by decide) (by decide) (by decide) (by decide) (by decide)
  have harch : archiveOf (processar_downloads dlE dateC []) =
      archiveFileName dateC := by
    rw [processar_eq dlE dateC []]
    rfl
  rw [harch]
  exact h.1

/-! ### The discovery cache -/

/-- Claim C5: starting from a cache slot that is not fresh, two discovery
calls whose second falls within the TTL window of the first invoke the
underlying scrape exactly once in total and return identical results;
a fresh (non-expired) entry is returned unchanged with zero scrape
invocations; and each scrape invocation issues exactly one page request
per configured source. -/
theorem discovery_cache_ttl (ttl : Nat) (resolve : Nat → List ResolvedLink)
    (t1 t2 : Nat) (s0 : Option CacheEntry)
    (r1 r2 : List ResolvedLink) (s1 s2 : Option CacheEntry) (n1 n2 : Nat)
    (join : String → String → String) (fetch : String → Option (List Anchor))
    (ts : List Tarefa)
    (hmiss : isFresh ttl t1 s0 = false)
    (h12 : t1 ≤ t2) (hwin : t2 - t1 ≤ ttl)
    (hc1 : cachedCall ttl resolve t1 s0 = (r1, s1, n1))
    (hc2 : cachedCall ttl resolve t2 s1 = (r2, s2, n2)) :
    n1 + n2 = 1 ∧ r1 = r2 ∧
    (∀ e : CacheEntry, t2 - e.computedAt ≤ ttl →
      cachedCall ttl resolve t2 (some e) = (e.links, some e, 0)) ∧
    (obterWithTrace join fetch ts).2 = ts.map (fun t => t.url) := by
  have h1eq : cachedCall ttl resolve t1 s0 =
      (resolve t1, some ⟨resolve t1, t1⟩, 1) := by
    cases s0 with
    | none => rfl
    | some e =>
      have hstale : ¬ (t1 - e.computedAt ≤ ttl) := by
        simpa [isFresh] using hmiss
      simp [cachedCall, hstale]
  rw [h1eq] at hc1
  obtain ⟨hr1, hs1, hn1⟩ :
      resolve t1 = r1 ∧ some (⟨resolve t1, t1⟩ : CacheEntry) = s1 ∧ 1 = n1 := by
    simpa [Prod.ext_iff] using hc1
  have h2eq : cachedCall ttl resolve t2 s1 = (resolve t1, s1, 0) := by
    rw [← hs1]
    simp [cachedCall, hwin]
  rw [h2eq] at hc2
  obtain ⟨hr2, hs2, hn2⟩ : resolve t1 = r2 ∧ s1 = s2 ∧ 0 = n2 := by
    simpa [Prod.ext_iff] using hc2
  refine ⟨by omega, hr1 ▸ hr2 ▸ rfl, ?_, ?_⟩
  · intro e he
    simp [cachedCall, he]
  · rw [obterWithTrace_spec]

/-- Witness for C5: first call at time 0 on the empty slot, second call
at time 3600 (the TTL boundary): one underlying invocation in total and
identical results, even though the scrape would return something else at
time 3600. -/
theorem discovery_cache_ttl_witness :
    cacheCall1.2.2 + cacheCall2.2.2 = 1 ∧ cacheCall1.1 = cacheCall2.1 := by
  have h := discovery_cache_ttl 3600 resC 0 3600 none
    cacheCall1.1 cacheCall2.1 cacheCall1.2.1 cacheCall2.2.1
    cacheCall1.2.2 cacheCall2.2.2 joinC fetchM []
    rfl (by omega) (by omega) rfl rfl
  exact ⟨h.1, h.2.1⟩

end IMAC
